import Mathlib

/-!
Verification of the squirrel SQL builder (update.go and the common table
expression file) against its natural-language specification.  The Go source is
shallowly embedded: each data record becomes a Lean structure, each method a
pure function, and the heterogeneous `any` values and `Sqlizer` interface
become closed sum types, following the design note of the spec that the
fragment kinds are a fixed, enumerable set.
-/

namespace Squirrel

/-- Bound argument values.  In Go the argument list is `[]any`; the concrete
payload is opaque to the builder, so a small closed type of sample payloads is
enough to track identity and order of arguments. -/
inductive Arg where
  | int (n : Int)
  | str (s : String)
  | null
deriving DecidableEq, Repr

/-- The placeholder dialects of the library: pass-through `?`, `$n`, `:n`, and
`@pn` (Question, Dollar, Colon, AtP in the Go source). -/
inductive PlaceholderFormat where
  | question
  | dollar
  | colon
  | atP
deriving DecidableEq, Repr

/-- Modelled from the spec: the numbered dialects replace each `?` by their
marker followed by a 1-based running count (§4.3). -/
def PlaceholderFormat.marker : PlaceholderFormat → String
  | .question => "?"
  | .dollar => "$"
  | .colon => ":"
  | .atP => "@p"

/-- Modelled from the spec: the placeholder rewriting scan of §4.3.  It walks
the text left to right; a doubled `??` collapses to one literal `?` without
consuming a number, any other `?` becomes the dialect marker plus the next
running count. -/
def replaceChars (pre : String) : List Char → Nat → String
  | [], _ => ""
  | '?' :: '?' :: rest, n => "?" ++ replaceChars pre rest n
  | '?' :: rest, n => pre ++ toString (n + 1) ++ replaceChars pre rest (n + 1)
  | c :: rest, n => String.singleton c ++ replaceChars pre rest n

/-- Modelled from the spec: `ReplacePlaceholders` of the placeholder formatter.
The pass-through Question dialect leaves the text unchanged; the numbered
dialects renumber with their marker (§4.3, §6).  The placeholder source file is
not part of the given source tree. -/
def PlaceholderFormat.replacePlaceholders (f : PlaceholderFormat) (s : String) : String :=
  match f with
  | .question => s
  | _ => replaceChars f.marker s.data 0

/-- The result triple of a top-level `ToSql` call: (sql text, ordered
arguments, error).  Go returns `(string, []any, error)`. -/
structure SqlResult where
  sql : String
  args : List Arg
  err : Option String
deriving DecidableEq, Repr

/-- Modelled from the spec: the SELECT statement builder is a separate source
file that is not part of the given tree.  Per §2 and §4.4 every statement
builder carries a placeholder format and an optional execution handle, renders
its stored clauses into text plus an ordered argument list, and finally passes
the text through its own placeholder formatter.  The stored clauses are
abstracted into the already-joined text `rawSql` with arguments `rawArgs`. -/
structure SelectData where
  placeholderFormat : PlaceholderFormat
  runWith : Option Unit
  rawSql : String
  rawArgs : List Arg
deriving DecidableEq, Repr

/-- Modelled from the spec: rendering a SELECT builder applies its own
placeholder format to its text and returns its arguments unchanged. -/
def selectToSql (s : SelectData) : String × List Arg :=
  (s.placeholderFormat.replacePlaceholders s.rawSql, s.rawArgs)

/-- Modelled from the spec: `SelectBuilder.PlaceholderFormat` produces a new
snapshot whose placeholder format field is replaced (§4.1). -/
def selectPlaceholderFormat (s : SelectData) (f : PlaceholderFormat) : SelectData :=
  { s with placeholderFormat := f }

/-- The renderable fragment protocol, as a closed sum over the fragment kinds
the spec enumerates (§3, §9): a raw expression with literal arguments
(`Expr`, `newPart`, `newWherePart`), a nested SELECT builder, an aliased
wrapper (`Alias`), and a named CTE entry (`cteExpr`). -/
inductive Sqlizer where
  | expr (sql : String) (args : List Arg)
  | selectB (s : SelectData)
  | aliasE (s : Sqlizer) (aliasName : String)
  | cteE (body : SelectData) (cteName : String)
deriving DecidableEq, Repr

/-- The Go code asks `value.(SelectBuilder)` when deciding whether to
parenthesize a spliced SET value; in the closed sum this is the `selectB`
variant. -/
def Sqlizer.isSelectB : Sqlizer → Bool
  | .selectB _ => true
  | _ => false

/-- Render of a fragment to (text, args), Go error included.  The raw
expression returns its text and arguments as-is; a nested SELECT renders via
`selectToSql`; `Alias` wraps the inner text as `(inner) AS name` (modelled
from the spec, §3: an aliased wrapper parenthesizes a nested statement and
appends an alias token); `cteExpr` renders `name AS (body)` (modelled from the
spec, §4.5). -/
def Sqlizer.toSql : Sqlizer → Except String (String × List Arg)
  | .expr s a => .ok (s, a)
  | .selectB s => .ok (selectToSql s)
  | .aliasE s al =>
    match s.toSql with
    | .error e => .error e
    | .ok (t, a) => .ok ("(" ++ t ++ ") AS " ++ al, a)
  | .cteE body n => .ok (n ++ " AS (" ++ (selectToSql body).1 ++ ")", (selectToSql body).2)

/-- In this closed fragment sum every render succeeds; failures in the full
library come only from nested statement validation, which the claims under
study never exercise inside a fragment. -/
theorem Sqlizer.toSql_ok (s : Sqlizer) : ∃ t a, s.toSql = .ok (t, a) := by
  induction s with
  | expr t a => exact ⟨t, a, rfl⟩
  | selectB sd => exact ⟨_, _, rfl⟩
  | aliasE inner al ih =>
    obtain ⟨t, a, h⟩ := ih
    exact ⟨"(" ++ t ++ ") AS " ++ al, a, by simp [Sqlizer.toSql, h]⟩
  | cteE body n => exact ⟨_, _, rfl⟩

/-- The rendered text of a fragment. -/
def sqlizerText (s : Sqlizer) : String :=
  match s.toSql with
  | .ok (t, _) => t
  | .error _ => ""

/-- The rendered arguments of a fragment. -/
def sqlizerArgs (s : Sqlizer) : List Arg :=
  match s.toSql with
  | .ok (_, a) => a
  | .error _ => []

theorem sqlizerText_args_spec (s : Sqlizer) : s.toSql = .ok (sqlizerText s, sqlizerArgs s) := by
  obtain ⟨t, a, h⟩ := s.toSql_ok
  simp [sqlizerText, sqlizerArgs, h]

/-- Modelled from the spec: the fragment composition algorithm of §4.2
(`appendToSql`, whose source file is not in the given tree).  It renders each
fragment in order, joins the texts with the separator between consecutive
fragments, appends the arguments of each fragment to the accumulator in text
order, and short-circuits on the first render failure. -/
def appendToSql : List Sqlizer → String → List Arg → Except String (String × List Arg)
  | [], _, args => .ok ("", args)
  | [p], _, args =>
    match p.toSql with
    | .error e => .error e
    | .ok (t, a) => .ok (t, args ++ a)
  | p :: q :: rest, sep, args =>
    match p.toSql with
    | .error e => .error e
    | .ok (t, a) =>
      match appendToSql (q :: rest) sep (args ++ a) with
      | .error e => .error e
      | .ok (trest, arest) => .ok (t ++ sep ++ trest, arest)

/-- A SET value is `any` in Go; it is either a plain bound value or a value
that implements the `Sqlizer` interface (the type switch at update.go:67). -/
inductive SetValue where
  | plain (a : Arg)
  | sqlizer (s : Sqlizer)
deriving DecidableEq, Repr

/-- One SET clause, `setClause{column, value}` of update.go. -/
structure SetClause where
  column : String
  value : SetValue
deriving DecidableEq, Repr

/-- The `updateData` record of update.go.  The Go field `From` is called
`fromPart` here because `from` is a reserved word in Lean; every other field
keeps its source name. -/
structure UpdateData where
  placeholderFormat : PlaceholderFormat
  runWith : Option Unit
  prefixes : List Sqlizer
  table : String
  setClauses : List SetClause
  fromPart : Option Sqlizer
  whereParts : List Sqlizer
  orderBys : List String
  limit : String
  offset : String
  suffixes : List Sqlizer
deriving DecidableEq, Repr

/-- The SET clause loop of updateData.ToSql (update.go:63-88): each clause
yields `column = ?` with the plain value appended to the accumulator, unless
the value is a Sqlizer, in which case its rendered text is spliced in,
parenthesized exactly when the value is a SelectBuilder, and its rendered
arguments are appended; the first render failure aborts. -/
def renderSets : List SetClause → List Arg → Except String (List String × List Arg)
  | [], args => .ok ([], args)
  | c :: rest, args =>
    match c.value with
    | .plain a =>
      match renderSets rest (args ++ [a]) with
      | .error e => .error e
      | .ok (ts, args2) => .ok ((c.column ++ " = ?") :: ts, args2)
    | .sqlizer vs =>
      match vs.toSql with
      | .error e => .error e
      | .ok (vsql, vargs) =>
        match renderSets rest (args ++ vargs) with
        | .error e => .error e
        | .ok (ts, args2) =>
          .ok ((c.column ++ " = " ++ (if vs.isSelectB then "(" ++ vsql ++ ")" else vsql)) :: ts,
               args2)

/-- One optional fragment-list clause of a ToSql body: an empty list emits
nothing and leaves the accumulator alone (the Go `if len(...) > 0` guard),
otherwise the fragments are joined with the separator and wrapped between the
fixed leading and trailing text of that clause. -/
def optionalFragments (parts : List Sqlizer) (pre sep post : String) (args : List Arg) :
    Except String (String × List Arg) :=
  if parts.isEmpty then .ok ("", args)
  else
    match appendToSql parts sep args with
    | .error e => .error e
    | .ok (t, a) => .ok (pre ++ t ++ post, a)

/-- updateData.ToSql (update.go:39-131): validation, then the buffer writes in
Go statement order, prefixes joined by a space plus a trailing space,
`UPDATE table`, ` SET ` plus the comma-joined clauses, optional ` FROM `
fragment, optional ` WHERE ` fragments joined by ` AND `, optional
` ORDER BY `, ` LIMIT `, ` OFFSET ` texts, optional space-joined suffixes
after a space, and the final placeholder pass over the whole text. -/
def updateToSql (d : UpdateData) : SqlResult :=
  if d.table = "" then ⟨"", [], some "update statements must specify a table"⟩
  else if d.setClauses.isEmpty then
    ⟨"", [], some "update statements must have at least one Set clause"⟩
  else
    match optionalFragments d.prefixes "" " " " " [] with
    | .error e => ⟨"", [], some e⟩
    | .ok (preTxt, args1) =>
      match renderSets d.setClauses args1 with
      | .error e => ⟨"", [], some e⟩
      | .ok (setSqls, args2) =>
        match optionalFragments d.fromPart.toList " FROM " "" "" args2 with
        | .error e => ⟨"", [], some e⟩
        | .ok (fromTxt, args3) =>
          match optionalFragments d.whereParts " WHERE " " AND " "" args3 with
          | .error e => ⟨"", [], some e⟩
          | .ok (whereTxt, args4) =>
            match optionalFragments d.suffixes " " " " "" args4 with
            | .error e => ⟨"", [], some e⟩
            | .ok (sufTxt, args5) =>
              ⟨d.placeholderFormat.replacePlaceholders
                (preTxt ++ "UPDATE " ++ d.table ++ " SET " ++
                  String.intercalate ", " setSqls ++ fromTxt ++ whereTxt ++
                  (if d.orderBys.isEmpty then "" else
                    " ORDER BY " ++ String.intercalate ", " d.orderBys) ++
                  (if d.limit = "" then "" else " LIMIT " ++ d.limit) ++
                  (if d.offset = "" then "" else " OFFSET " ++ d.offset) ++
                  sufTxt),
               args5, none⟩

/-- UpdateBuilder.Table (update.go:192-194): replace the Table field. -/
def updateTable (b : UpdateData) (t : String) : UpdateData :=
  { b with table := t }

/-- UpdateBuilder.Set (update.go:197-199): append one set clause. -/
def updateSet (b : UpdateData) (column : String) (value : SetValue) : UpdateData :=
  { b with setClauses := b.setClauses ++ [⟨column, value⟩] }

/-- UpdateBuilder.Where (update.go:233-235): append one predicate fragment
(`newWherePart` is modelled as an already-built fragment). -/
def updateWhere (b : UpdateData) (p : Sqlizer) : UpdateData :=
  { b with whereParts := b.whereParts ++ [p] }

/-- UpdateBuilder.OrderBy (update.go:238-240): extend the order tokens. -/
def updateOrderBy (b : UpdateData) (orderBys : List String) : UpdateData :=
  { b with orderBys := b.orderBys ++ orderBys }

/-- UpdateBuilder.FromSelect (update.go:224-228): the nested select first has
its placeholder format forced to Question, then is stored wrapped in an alias
fragment. -/
def updateFromSelect (b : UpdateData) (s : SelectData) (aliasName : String) : UpdateData :=
  { b with
    fromPart := some (.aliasE (.selectB (selectPlaceholderFormat s .question)) aliasName) }

/-- Lexicographic byte order on strings, the order used by sort.Strings in Go.
Lean chars are compared by code point, which agrees with the UTF-8 byte order
Go uses. -/
def charListLe : List Char → List Char → Bool
  | [], _ => true
  | _ :: _, [] => false
  | a :: as, b :: bs => if a = b then charListLe as bs else decide (a < b)

def strLe (a b : String) : Prop :=
  charListLe a.data b.data = true

instance : DecidableRel strLe := fun _ _ => inferInstanceAs (Decidable (_ = true))

/-- Association-list lookup standing for the Go map indexing `clauses[key]`. -/
def lookupVal (k : String) : List (String × SetValue) → Option SetValue
  | [] => none
  | (k2, v) :: rest => if k2 = k then some v else lookupVal k rest

/-- UpdateBuilder.SetMap (update.go:202-215): collect the keys of the map,
sort them, and call Set for each key in sorted order.  The Go map is modelled
as an association list in iteration order; a key drawn from the key list is
always present, so the lookup default is never used. -/
def updateSetMap (b : UpdateData) (clauses : List (String × SetValue)) : UpdateData :=
  let keys := List.insertionSort strLe (clauses.map Prod.fst)
  keys.foldl (fun acc k => updateSet acc k ((lookupVal k clauses).getD (.plain .null))) b

/-- The `commonTableExpressionsData` record of the CTE source file. -/
structure CteData where
  placeholderFormat : PlaceholderFormat
  runWith : Option Unit
  recursive : Bool
  currentCteName : String
  ctes : List Sqlizer
  statement : Option Sqlizer
deriving DecidableEq, Repr

/-- commonTableExpressionsData.toSql: validation of the CTE list and the
terminal statement, then `WITH `, optional `RECURSIVE `, the comma-joined CTE
entries, a space, the rendered terminal statement, and the final placeholder
pass. -/
def cteToSql (d : CteData) : SqlResult :=
  if d.ctes.isEmpty then
    ⟨"", [], some "common table expressions statements must have at least one label and subquery"⟩
  else
    match d.statement with
    | none =>
      ⟨"", [],
       some "common table expressions must one of the following final statement: (select, insert, replace, update, delete)"⟩
    | some st =>
      match appendToSql d.ctes ", " [] with
      | .error e => ⟨"", [], some e⟩
      | .ok (cteTxt, cteArgs) =>
        match appendToSql [st] "" cteArgs with
        | .error e => ⟨"", [], some e⟩
        | .ok (stTxt, allArgs) =>
          ⟨d.placeholderFormat.replacePlaceholders
            ("WITH " ++ (if d.recursive then "RECURSIVE " else "") ++ cteTxt ++ " " ++ stTxt),
           allArgs, none⟩

/-- CommonTableExpressionsBuilder.Cte: record the pending CTE name. -/
def cteCte (b : CteData) (cte : String) : CteData :=
  { b with currentCteName := cte }

/-- CommonTableExpressionsBuilder.As: append `cteExpr{as, CurrentCteName}` to
the completed CTE list.  The source stores the given select builder unchanged
and does not touch the CurrentCteName field. -/
def cteAs (b : CteData) (asSelect : SelectData) : CteData :=
  { b with ctes := b.ctes ++ [.cteE asSelect b.currentCteName] }

/-- CommonTableExpressionsBuilder.Recursive: replace the recursive flag. -/
def cteRecursive (b : CteData) (r : Bool) : CteData :=
  { b with recursive := r }

/-- CommonTableExpressionsBuilder.Select: attach the terminal statement. -/
def cteSelect (b : CteData) (statement : SelectData) : CteData :=
  { b with statement := some (.selectB statement) }

/-- Outcome of an execution convenience call.  The external runner is never
modelled beyond being attached or not (§6); handing the rendered pair to it is
the `executed` outcome, and a Go runtime panic is the `panicked` outcome. -/
inductive ExecOutcome where
  | errRunnerNotSet
  | renderErr (msg : String)
  | executed (sql : String) (args : List Arg)
  | panicked
deriving DecidableEq, Repr

/-- updateData.Exec (update.go:32-37): a nil runner returns the RunnerNotSet
sentinel before anything is rendered; otherwise ExecWith renders the statement
and hands (sql, args) to the runner (ExecWith modelled from the spec, §6). -/
def updateExec (d : UpdateData) : ExecOutcome :=
  match d.runWith with
  | none => .errRunnerNotSet
  | some _ =>
    match updateToSql d with
    | ⟨s, a, none⟩ => .executed s a
    | ⟨_, _, some e⟩ => .renderErr e

/-- commonTableExpressionsData.Exec: nil runner yields RunnerNotSet, otherwise
render and execute (ExecWith modelled from the spec, §6). -/
def cteDataExec (d : CteData) : ExecOutcome :=
  match d.runWith with
  | none => .errRunnerNotSet
  | some _ =>
    match cteToSql d with
    | ⟨s, a, none⟩ => .executed s a
    | ⟨_, _, some e⟩ => .renderErr e

/-- commonTableExpressionsData.Query: same nil-runner check as Exec. -/
def cteDataQuery (d : CteData) : ExecOutcome :=
  match d.runWith with
  | none => .errRunnerNotSet
  | some _ =>
    match cteToSql d with
    | ⟨s, a, none⟩ => .executed s a
    | ⟨_, _, some e⟩ => .renderErr e

/-- commonTableExpressionsData.QueryRow: a nil runner yields a row carrying the
RunnerNotSet sentinel.  The QueryRower capability of the attached runner is
external; the modelled runner supports it. -/
def cteDataQueryRow (d : CteData) : ExecOutcome :=
  match d.runWith with
  | none => .errRunnerNotSet
  | some _ =>
    match cteToSql d with
    | ⟨s, a, none⟩ => .executed s a
    | ⟨_, _, some e⟩ => .renderErr e

/-- Modelled from the lann builder library used by the source: a builder value
wraps the data record registered for its kind.  `builder.Register` ties
UpdateBuilder to updateData and CommonTableExpressionsBuilder to
commonTableExpressionsData (update.go init blocks). -/
inductive RegisteredData where
  | updateD (d : UpdateData)
  | cteD (d : CteData)
  | selectD (d : SelectData)
deriving DecidableEq, Repr

/-- builder.GetStruct on a CommonTableExpressionsBuilder returns its
registered commonTableExpressionsData record. -/
def cteBuilderGetStruct (b : CteData) : RegisteredData :=
  .cteD b

/-- The Go type assertion `.(selectData)`: it produces the value only when the
dynamic type is selectData, and panics otherwise (the single-result assertion
form used at the CTE builder Exec, Query, and QueryRow methods). -/
def assertSelectData : RegisteredData → Option SelectData
  | .selectD s => some s
  | _ => none

/-- The Go type assertion `.(updateData)` used by UpdateBuilder.Exec. -/
def assertUpdateData : RegisteredData → Option UpdateData
  | .updateD d => some d
  | _ => none

/-- Modelled from the spec: selectData.Exec follows the same shape as the
other data records, a nil-runner check before rendering (§6). -/
def selectDataExec (s : SelectData) : ExecOutcome :=
  match s.runWith with
  | none => .errRunnerNotSet
  | some _ => .executed (selectToSql s).1 (selectToSql s).2

/-- UpdateBuilder.Exec (update.go:158-161): GetStruct asserted to updateData,
then updateData.Exec.  The assertion matches the registered type. -/
def updateBuilderExec (b : UpdateData) : ExecOutcome :=
  match assertUpdateData (.updateD b) with
  | none => .panicked
  | some d => updateExec d

/-- CommonTableExpressionsBuilder.Exec: GetStruct asserted to selectData, then
selectData.Exec.  The registered record is commonTableExpressionsData, so the
assertion is against the wrong type. -/
def cteBuilderExec (b : CteData) : ExecOutcome :=
  match assertSelectData (cteBuilderGetStruct b) with
  | none => .panicked
  | some s => selectDataExec s

/-- CommonTableExpressionsBuilder.Query: same wrong-type assertion as Exec. -/
def cteBuilderQuery (b : CteData) : ExecOutcome :=
  match assertSelectData (cteBuilderGetStruct b) with
  | none => .panicked
  | some s => selectDataExec s

/-- CommonTableExpressionsBuilder.QueryRow: same wrong-type assertion. -/
def cteBuilderQueryRow (b : CteData) : ExecOutcome :=
  match assertSelectData (cteBuilderGetStruct b) with
  | none => .panicked
  | some s => selectDataExec s

/-- The chained UPDATE builder methods the immutability claim names. -/
inductive UpdateOp where
  | table (t : String)
  | set (column : String) (value : SetValue)
  | whereOp (p : Sqlizer)
  | orderBy (orderBys : List String)
deriving DecidableEq, Repr

def applyUpdateOp (b : UpdateData) : UpdateOp → UpdateData
  | .table t => updateTable b t
  | .set c v => updateSet b c v
  | .whereOp p => updateWhere b p
  | .orderBy os => updateOrderBy b os

/-- Modelled from the spec: the immutable builder core (§4.1, the external
lann builder library).  A lineage is the list of snapshots produced so far;
a chained call reads one snapshot and appends the derived snapshot, copying
rather than mutating, so existing entries are never written. -/
def deriveSnapshot (store : List UpdateData) (i : Nat) (op : UpdateOp) : List UpdateData :=
  match store[i]? with
  | some b => store ++ [applyUpdateOp b op]
  | none => store

/-- The zero value of updateData, as a fresh UpdateBuilder carries it. -/
def emptyUpdate : UpdateData :=
  ⟨.question, none, [], "", [], none, [], [], "", "", []⟩

/-- The zero value of commonTableExpressionsData. -/
def emptyCte : CteData :=
  ⟨.question, none, false, "", [], none⟩

/-- A small concrete select body used by witnesses. -/
def selOne : SelectData :=
  ⟨.question, none, "SELECT 1", []⟩

/-- C3: rendering fails before any text is produced, returning the descriptive
validation error together with empty SQL text and an empty argument list, when
a required field is missing: for UPDATE an empty table name or zero SET
clauses, for the CTE builder an empty CTE list or a missing terminal
statement. -/
theorem required_field_validation (d : UpdateData) (c : CteData) :
    (d.table = "" →
      updateToSql d = ⟨"", [], some "update statements must specify a table"⟩) ∧
    (d.table ≠ "" → d.setClauses = [] →
      updateToSql d = ⟨"", [], some "update statements must have at least one Set clause"⟩) ∧
    (c.ctes = [] →
      cteToSql c =
        ⟨"", [],
         some "common table expressions statements must have at least one label and subquery"⟩) ∧
    (c.ctes ≠ [] → c.statement = none →
      cteToSql c =
        ⟨"", [],
         some "common table expressions must one of the following final statement: (select, insert, replace, update, delete)"⟩) := by
  refine ⟨fun hT => ?_, fun hT hS => ?_, fun hC => ?_, fun hC hSt => ?_⟩
  · simp [updateToSql, hT]
  · simp [updateToSql, hT, hS]
  · simp [cteToSql, hC]
  · simp [cteToSql, List.isEmpty_iff, hC, hSt]

/-- Witness for C3 at concrete builders: an UPDATE with no table, an UPDATE
with a table but no SET clause, an empty CTE builder, and a CTE builder with
one CTE but no terminal statement. -/
theorem required_field_validation_witness :
    updateToSql emptyUpdate =
      ⟨"", [], some "update statements must specify a table"⟩ ∧
    updateToSql (updateTable emptyUpdate "users") =
      ⟨"", [], some "update statements must have at least one Set clause"⟩ ∧
    cteToSql emptyCte =
      ⟨"", [],
       some "common table expressions statements must have at least one label and subquery"⟩ ∧
    cteToSql (cteAs (cteCte emptyCte "t") selOne) =
      ⟨"", [],
       some "common table expressions must one of the following final statement: (select, insert, replace, update, delete)"⟩ := by
  refine ⟨(required_field_validation emptyUpdate emptyCte).1 rfl,
    (required_field_validation (updateTable emptyUpdate "users") emptyCte).2.1 (by decide) rfl,
    (required_field_validation emptyUpdate emptyCte).2.2.1 rfl,
    (required_field_validation emptyUpdate (cteAs (cteCte emptyCte "t") selOne)).2.2.2
      (by decide) rfl⟩

/-- C7 counterexample: the claim says the As call clears the pending name, but
after `Cte("t").As(...)` the CurrentCteName field of the new snapshot still
holds "t" rather than the empty string. -/
theorem cte_pending_name_counterexample :
    (cteAs (cteCte emptyCte "t") selOne).currentCteName = "t" ∧ ("t" : String) ≠ "" := by
  exact ⟨rfl, by decide⟩

/-- C7 amended: Cte sets the pending name; the next As pairs the pending name
with the given statement and appends the pair to the completed CTE list, but
it leaves the pending-name field holding the same name instead of clearing
it. -/
theorem cte_pending_name_amended (b : CteData) (x : String) (s : SelectData) :
    (cteCte b x).currentCteName = x ∧
    (cteAs (cteCte b x) s).ctes = b.ctes ++ [.cteE s x] ∧
    (cteAs (cteCte b x) s).currentCteName = x := by
  exact ⟨rfl, rfl, rfl⟩

/-- C9: the data-level Exec, Query and QueryRow calls with no runner attached
do return the RunnerNotSet sentinel before rendering (the UPDATE value below
would not even pass validation, yet the outcome is the sentinel, not a render
error); but the builder-level CTE Exec, Query and QueryRow assert the
registered commonTableExpressionsData record to selectData and therefore panic
instead of returning the sentinel, contradicting the claim. -/
theorem exec_runner_not_set_bug :
    updateExec emptyUpdate = .errRunnerNotSet ∧
    cteDataExec emptyCte = .errRunnerNotSet ∧
    cteDataQuery emptyCte = .errRunnerNotSet ∧
    cteDataQueryRow emptyCte = .errRunnerNotSet ∧
    cteBuilderExec emptyCte = .panicked ∧
    cteBuilderQuery emptyCte = .panicked ∧
    cteBuilderQueryRow emptyCte = .panicked ∧
    cteBuilderExec { emptyCte with runWith := some () } = .panicked := by
  exact ⟨rfl, rfl, rfl, rfl, rfl, rfl, rfl, rfl⟩

/-- C10: FromSelect stores, as the FROM fragment, an alias wrapper around a
copy of the select whose placeholder format is reset to the pass-through
Question dialect; the stored fragment renders to `(raw text) AS alias` with
the raw markers untouched, independently of whatever format the caller had
set on the select, and the other builder fields are untouched. -/
theorem fromSelect_question_lock (b : UpdateData) (s : SelectData) (aliasName : String) :
    (updateFromSelect b s aliasName).fromPart =
      some (.aliasE (.selectB (selectPlaceholderFormat s .question)) aliasName) ∧
    (selectPlaceholderFormat s .question).placeholderFormat = .question ∧
    (selectPlaceholderFormat s .question).rawSql = s.rawSql ∧
    (selectPlaceholderFormat s .question).rawArgs = s.rawArgs ∧
    (Sqlizer.aliasE (.selectB (selectPlaceholderFormat s .question)) aliasName).toSql =
      .ok ("(" ++ s.rawSql ++ ") AS " ++ aliasName, s.rawArgs) ∧
    (updateFromSelect b s aliasName).table = b.table ∧
    (updateFromSelect b s aliasName).setClauses = b.setClauses ∧
    (updateFromSelect b s aliasName).whereParts = b.whereParts ∧
    (updateFromSelect b s aliasName).placeholderFormat = b.placeholderFormat := by
  refine ⟨rfl, rfl, rfl, rfl, ?_, rfl, rfl, rfl, rfl⟩
  simp [Sqlizer.toSql, selectToSql, selectPlaceholderFormat, PlaceholderFormat.replacePlaceholders]

/-- The per-clause SET text exactly as the spec words it: `column = ?` for a
plain value, and for a renderable value the spliced rendered text,
parenthesized exactly when the value is a complete SELECT sub-statement. -/
def specSetText (c : SetClause) : String :=
  match c.value with
  | .plain _ => c.column ++ " = ?"
  | .sqlizer s =>
    c.column ++ " = " ++ (if s.isSelectB then "(" ++ sqlizerText s ++ ")" else sqlizerText s)

/-- The per-clause argument contribution as the spec words it: the plain value
itself, or the rendered arguments of the spliced fragment. -/
def specSetArgs (c : SetClause) : List Arg :=
  match c.value with
  | .plain a => [a]
  | .sqlizer s => sqlizerArgs s

/-- C2: the SET loop renders every clause to `column = ?` with the plain value
appended, or splices a renderable value in place (parenthesized exactly when
it is a SELECT sub-statement), and the final argument list is the accumulator
followed by the per-clause contributions in left-to-right text order. -/
theorem set_clause_splice (clauses : List SetClause) (args0 : List Arg) :
    renderSets clauses args0 =
      .ok (clauses.map specSetText, args0 ++ (clauses.map specSetArgs).flatten) := by
  induction clauses generalizing args0 with
  | nil => simp [renderSets]
  | cons c rest ih =>
    cases hv : c.value with
    | plain a =>
      simp [renderSets, hv, ih, specSetText, specSetArgs, List.append_assoc]
    | sqlizer s =>
      obtain ⟨t, a, h⟩ := s.toSql_ok
      simp [renderSets, hv, h, ih, specSetText, specSetArgs, sqlizerText, sqlizerArgs,
        List.append_assoc]

/-- C5: deriving a new snapshot from any snapshot in a lineage leaves every
existing snapshot, and hence its ToSql output, unchanged. -/
theorem snapshot_immutability (store : List UpdateData) (i : Nat) (op : UpdateOp) (j : Nat)
    (hj : j < store.length) :
    (deriveSnapshot store i op)[j]? = store[j]? ∧
    ((deriveSnapshot store i op)[j]?).map updateToSql = (store[j]?).map updateToSql := by
  have key : (deriveSnapshot store i op)[j]? = store[j]? := by
    unfold deriveSnapshot
    cases h : store[i]? with
    | none => rfl
    | some b => exact List.getElem?_append_left hj
  exact ⟨key, by rw [key]⟩

/-- A one-snapshot lineage used by the immutability witness. -/
def wStore : List UpdateData :=
  [updateSet (updateTable emptyUpdate "t") "x" (.plain (.int 1))]

/-- Witness for C5: deriving a second snapshot with a further Set leaves the
first snapshot and its render untouched. -/
theorem snapshot_immutability_witness :
    (0 : Nat) < wStore.length ∧
    (deriveSnapshot wStore 0 (.set "y" (.plain (.int 2))))[0]? = wStore[0]? ∧
    ((deriveSnapshot wStore 0 (.set "y" (.plain (.int 2))))[0]?).map updateToSql =
      (wStore[0]?).map updateToSql :=
  ⟨by decide,
   (snapshot_immutability wStore 0 (.set "y" (.plain (.int 2))) 0 (by decide)).1,
   (snapshot_immutability wStore 0 (.set "y" (.plain (.int 2))) 0 (by decide)).2⟩

/-- C6: a CTE builder that passes validation renders `WITH `, then
`RECURSIVE ` exactly when the recursive flag is set, then the comma-joined CTE
entries, one space, and the rendered terminal statement, and the argument list
is the CTE-entry arguments in entry order followed by the terminal-statement
arguments. -/
theorem cte_render_order (d : CteData) (st : Sqlizer) (cteTxt stTxt : String)
    (cteArgs stArgs : List Arg)
    (hSt : d.statement = some st)
    (hRender : appendToSql d.ctes ", " [] = .ok (cteTxt, cteArgs))
    (hStRender : st.toSql = .ok (stTxt, stArgs))
    (hC : ¬ d.ctes.isEmpty) :
    cteToSql d =
      ⟨d.placeholderFormat.replacePlaceholders
        ("WITH " ++ (if d.recursive then "RECURSIVE " else "") ++ cteTxt ++ " " ++ stTxt),
       cteArgs ++ stArgs, none⟩ := by
  simp [cteToSql, hC, hSt, hRender, appendToSql, hStRender]

/-- The recursive CTE builder of the spec round-trip example. -/
def wCte : CteData :=
  cteSelect (cteAs (cteCte (cteRecursive emptyCte true) "t") selOne)
    ⟨.question, none, "SELECT x FROM t", []⟩

/-- Witness for C6 at the spec round-trip example: one recursive CTE named t
and a terminal SELECT reading from it. -/
theorem cte_render_order_witness :
    cteToSql wCte = ⟨"WITH RECURSIVE t AS (SELECT 1) SELECT x FROM t", [], none⟩ :=
  cte_render_order wCte (.selectB ⟨.question, none, "SELECT x FROM t", []⟩)
    "t AS (SELECT 1)" "SELECT x FROM t" [] [] rfl rfl rfl (by decide)

theorem appendToSql_nil (sep : String) (args : List Arg) (t : String) (a : List Arg)
    (h : appendToSql [] sep args = .ok (t, a)) : t = "" ∧ a = args := by
  simp [appendToSql] at h
  exact ⟨h.1.symm, h.2.symm⟩

theorem optionalFragments_spec (parts : List Sqlizer) (pre sep post : String)
    (args : List Arg) (t : String) (a : List Arg)
    (h : appendToSql parts sep args = .ok (t, a)) :
    optionalFragments parts pre sep post args =
      .ok ((if parts.isEmpty then "" else pre ++ t ++ post), a) := by
  cases parts with
  | nil =>
    obtain ⟨ht, ha⟩ := appendToSql_nil sep args t a h
    simp [optionalFragments, ha]
  | cons p ps =>
    simp [optionalFragments, h]

/-- C1: for a snapshot that passes validation and whose fragments render, the
emitted text is, in order: the space-joined prefixes and a space when present,
`UPDATE table`, ` SET ` with the comma-joined set assignments, ` FROM ` with
the FROM fragment when present, ` WHERE ` with the predicates joined by
` AND ` when present, ` ORDER BY ` with the comma-joined order tokens when
present, ` LIMIT n` and ` OFFSET n` when present, a space and the space-joined
suffixes when present, the whole text passed through the placeholder
formatter. -/
theorem update_render_order (d : UpdateData)
    (preTxt : String) (preArgs : List Arg)
    (setTxts : List String) (setArgs : List Arg)
    (fromTxt : String) (fromArgs : List Arg)
    (whereTxt : String) (whereArgs : List Arg)
    (sufTxt : String) (sufArgs : List Arg)
    (hT : d.table ≠ "")
    (hS : ¬ d.setClauses.isEmpty)
    (hPre : appendToSql d.prefixes " " [] = .ok (preTxt, preArgs))
    (hSet : renderSets d.setClauses preArgs = .ok (setTxts, setArgs))
    (hFrom : appendToSql d.fromPart.toList "" setArgs = .ok (fromTxt, fromArgs))
    (hWhere : appendToSql d.whereParts " AND " fromArgs = .ok (whereTxt, whereArgs))
    (hSuf : appendToSql d.suffixes " " whereArgs = .ok (sufTxt, sufArgs)) :
    updateToSql d =
      ⟨d.placeholderFormat.replacePlaceholders
        ((if d.prefixes.isEmpty then "" else preTxt ++ " ") ++
          "UPDATE " ++ d.table ++ " SET " ++ String.intercalate ", " setTxts ++
          (if d.fromPart.isSome then " FROM " ++ fromTxt else "") ++
          (if d.whereParts.isEmpty then "" else " WHERE " ++ whereTxt) ++
          (if d.orderBys.isEmpty then "" else
            " ORDER BY " ++ String.intercalate ", " d.orderBys) ++
          (if d.limit = "" then "" else " LIMIT " ++ d.limit) ++
          (if d.offset = "" then "" else " OFFSET " ++ d.offset) ++
          (if d.suffixes.isEmpty then "" else " " ++ sufTxt)),
       sufArgs, none⟩ := by
  unfold updateToSql
  rw [if_neg hT, if_neg hS]
  simp only [optionalFragments_spec d.prefixes "" " " " " [] preTxt preArgs hPre, hSet,
    optionalFragments_spec d.fromPart.toList " FROM " "" "" setArgs fromTxt fromArgs hFrom,
    optionalFragments_spec d.whereParts " WHERE " " AND " "" fromArgs whereTxt whereArgs hWhere,
    optionalFragments_spec d.suffixes " " " " "" whereArgs sufTxt sufArgs hSuf]
  have hFromIf : (if d.fromPart.toList.isEmpty then "" else " FROM " ++ fromTxt ++ "") =
      (if d.fromPart.isSome then " FROM " ++ fromTxt else "") := by
    cases d.fromPart <;> simp
  have hWhereIf : (if d.whereParts.isEmpty then "" else " WHERE " ++ whereTxt ++ "") =
      (if d.whereParts.isEmpty then "" else " WHERE " ++ whereTxt) := by
    cases d.whereParts <;> simp [String.append_empty]
  have hSufIf : (if d.suffixes.isEmpty then "" else " " ++ sufTxt ++ "") =
      (if d.suffixes.isEmpty then "" else " " ++ sufTxt) := by
    cases d.suffixes <;> simp [String.append_empty]
  have hPreIf : (if d.prefixes.isEmpty then "" else "" ++ preTxt ++ " ") =
      (if d.prefixes.isEmpty then "" else preTxt ++ " ") := by
    cases d.prefixes <;> simp
  rw [hFromIf, hWhereIf, hSufIf, hPreIf]

/-- A fully populated UPDATE builder used by the render-order witness. -/
def wUpdate : UpdateData :=
  { placeholderFormat := .question
    runWith := none
    prefixes := [.expr "WITH x" [.int 9]]
    table := "t"
    setClauses :=
      [⟨"a", .plain (.int 1)⟩,
       ⟨"b", .sqlizer (.selectB ⟨.question, none, "SELECT m FROM n WHERE k = ?", [.int 2]⟩)⟩]
    fromPart := some (.expr "f" [])
    whereParts := [.expr "c = ?" [.int 3], .expr "d = ?" [.int 4]]
    orderBys := ["a DESC"]
    limit := "10"
    offset := "5"
    suffixes := [.expr "RETURNING a" []] }

/-- Witness for C1: every optional clause present at once, in the claimed
order, with the argument list following the text left to right. -/
theorem update_render_order_witness :
    updateToSql wUpdate =
      ⟨"WITH x UPDATE t SET a = ?, b = (SELECT m FROM n WHERE k = ?) FROM f WHERE c = ? AND d = ? ORDER BY a DESC LIMIT 10 OFFSET 5 RETURNING a",
       [.int 9, .int 1, .int 2, .int 3, .int 4], none⟩ := by
  have h := update_render_order wUpdate "WITH x" [.int 9]
    ["a = ?", "b = (SELECT m FROM n WHERE k = ?)"] [.int 9, .int 1, .int 2]
    "f" [.int 9, .int 1, .int 2]
    "c = ? AND d = ?" [.int 9, .int 1, .int 2, .int 3, .int 4]
    "RETURNING a" [.int 9, .int 1, .int 2, .int 3, .int 4]
    (by decide) (by decide) rfl rfl rfl rfl rfl
  exact h.trans (by decide)

/-- The CTE body of the C8 demonstration: a select whose own placeholder
format was left at Dollar by the caller. -/
def c8Body : SelectData :=
  ⟨.dollar, none, "SELECT ?", [.int 1]⟩

/-- The CTE builder of the C8 demonstration, built through the chained calls:
Dollar outer format, Cte("t"), As(c8Body), terminal select reading from t. -/
def c8Data : CteData :=
  cteSelect (cteAs (cteCte { emptyCte with placeholderFormat := .dollar } "t") c8Body)
    ⟨.question, none, "SELECT ? FROM t", [.int 2]⟩

/-- C8: As stores the select body unchanged, keeping its Dollar placeholder
format instead of locking it to Question, so the body renders its own `$1`
before the outer Dollar pass runs; the outer pass then renumbers only the
remaining terminal `?`, and the two distinct arguments both end up referred
to as `$1` in the final text. -/
theorem cte_as_keeps_body_format :
    (cteAs (cteCte { emptyCte with placeholderFormat := .dollar } "t") c8Body).ctes =
      [.cteE c8Body "t"] ∧
    c8Body.placeholderFormat = .dollar ∧
    cteToSql c8Data =
      ⟨"WITH t AS (SELECT $1) SELECT $1 FROM t", [.int 1, .int 2], none⟩ := by
  exact ⟨rfl, rfl, by decide⟩

theorem charListLe_total : ∀ as bs : List Char,
    charListLe as bs = true ∨ charListLe bs as = true
  | [], _ => Or.inl rfl
  | _ :: _, [] => Or.inr rfl
  | a :: as, b :: bs => by
    by_cases hab : a = b
    · subst hab
      simp only [charListLe, if_pos rfl]
      exact charListLe_total as bs
    · rcases lt_or_gt_of_ne hab with hlt | hgt
      · left
        simp [charListLe, hab, hlt]
      · right
        have hba : ¬ b = a := Ne.symm hab
        simp [charListLe, hba, hgt]

theorem charListLe_trans : ∀ as bs cs : List Char,
    charListLe as bs = true → charListLe bs cs = true → charListLe as cs = true
  | [], _, _, _, _ => rfl
  | _ :: _, [], _, h1, _ => by simp [charListLe] at h1
  | _ :: _, _ :: _, [], _, h2 => by simp [charListLe] at h2
  | a :: as, b :: bs, c :: cs, h1, h2 => by
    by_cases hab : a = b <;> by_cases hbc : b = c
    · subst hab; subst hbc
      simp only [charListLe, if_pos rfl] at h1 h2 ⊢
      exact charListLe_trans as bs cs h1 h2
    · subst hab
      simp only [charListLe, if_pos rfl] at h2
      simp only [charListLe, if_neg hbc] at h2 ⊢
      exact h2
    · subst hbc
      simp only [charListLe, if_neg hab] at h1 ⊢
      exact h1
    · simp only [charListLe, if_neg hab] at h1
      simp only [charListLe, if_neg hbc] at h2
      have hac : a < c := lt_trans (of_decide_eq_true h1) (of_decide_eq_true h2)
      simp [charListLe, ne_of_lt hac, hac]

theorem charListLe_antisymm : ∀ as bs : List Char,
    charListLe as bs = true → charListLe bs as = true → as = bs
  | [], [], _, _ => rfl
  | [], _ :: _, _, h2 => by simp [charListLe] at h2
  | _ :: _, [], h1, _ => by simp [charListLe] at h1
  | a :: as, b :: bs, h1, h2 => by
    by_cases hab : a = b
    · subst hab
      simp only [charListLe, if_pos rfl] at h1 h2
      rw [charListLe_antisymm as bs h1 h2]
    · exfalso
      have hba : ¬ b = a := Ne.symm hab
      simp only [charListLe, if_neg hab] at h1
      simp only [charListLe, if_neg hba] at h2
      exact absurd (of_decide_eq_true h1) (asymm (of_decide_eq_true h2))

instance : IsTotal String strLe :=
  ⟨fun a b => charListLe_total a.data b.data⟩

instance : IsTrans String strLe :=
  ⟨fun a b c => charListLe_trans a.data b.data c.data⟩

instance : IsAntisymm String strLe :=
  ⟨fun a b h1 h2 => by
    cases a; cases b
    exact congrArg String.mk (charListLe_antisymm _ _ h1 h2)⟩

theorem lookupVal_perm {l1 l2 : List (String × SetValue)} (h : l1.Perm l2) :
    (l1.map Prod.fst).Nodup → ∀ k, lookupVal k l1 = lookupVal k l2 := by
  induction h with
  | nil => exact fun _ _ => rfl
  | cons x h ih =>
    intro hnd k
    obtain ⟨kx, vx⟩ := x
    simp only [List.map_cons, List.nodup_cons] at hnd
    simp only [lookupVal]
    by_cases hk : kx = k
    · simp [hk]
    · simp only [if_neg hk]
      exact ih hnd.2 k
  | swap x y l =>
    intro hnd k
    obtain ⟨kx, vx⟩ := x
    obtain ⟨ky, vy⟩ := y
    simp only [List.map_cons, List.nodup_cons, List.mem_cons] at hnd
    have hxy : ky ≠ kx := fun hco => hnd.1 (Or.inl hco)
    simp only [lookupVal]
    by_cases hky : ky = k <;> by_cases hkx : kx = k
    · exact absurd (hky.trans hkx.symm) hxy
    · simp [hky, hkx]
    · simp [hky, hkx]
    · simp [hky, hkx]
  | trans h1 h2 ih1 ih2 =>
    intro hnd k
    have hnd2 := (h1.map Prod.fst).nodup_iff.mp hnd
    exact (ih1 hnd k).trans (ih2 hnd2 k)

theorem setMapFold_clauses (keys : List String) (f : String → SetValue) (b : UpdateData) :
    (keys.foldl (fun acc k => updateSet acc k (f k)) b).setClauses =
      b.setClauses ++ keys.map fun k => ⟨k, f k⟩ := by
  induction keys generalizing b with
  | nil => simp
  | cons k ks ih =>
    rw [List.foldl_cons, ih]
    simp [updateSet, List.append_assoc]

/-- C4: SetMap appends the set clauses in sorted (lexicographic) key order, so
builders fed the same key/value pairs in any two iteration orders are equal
records and render to identical ToSql output. -/
theorem setMap_sorted_deterministic (b : UpdateData) (l1 l2 : List (String × SetValue))
    (hperm : l1.Perm l2) (hnd : (l1.map Prod.fst).Nodup) :
    updateSetMap b l1 = updateSetMap b l2 ∧
    updateToSql (updateSetMap b l1) = updateToSql (updateSetMap b l2) ∧
    (updateSetMap b l1).setClauses.map SetClause.column =
      b.setClauses.map SetClause.column ++ List.insertionSort strLe (l1.map Prod.fst) ∧
    List.Sorted strLe (List.insertionSort strLe (l1.map Prod.fst)) := by
  have hkeys : List.insertionSort strLe (l1.map Prod.fst) =
      List.insertionSort strLe (l2.map Prod.fst) :=
    List.eq_of_perm_of_sorted
      ((List.perm_insertionSort _ _).trans
        ((hperm.map Prod.fst).trans (List.perm_insertionSort strLe _).symm))
      (List.sorted_insertionSort _ _) (List.sorted_insertionSort _ _)
  have heq : updateSetMap b l1 = updateSetMap b l2 := by
    simp only [updateSetMap]
    rw [hkeys]
    have hstep : (fun (acc : UpdateData) k => updateSet acc k ((lookupVal k l1).getD (.plain .null))) =
        (fun acc k => updateSet acc k ((lookupVal k l2).getD (.plain .null))) :=
      funext fun acc => funext fun k => by rw [lookupVal_perm hperm hnd k]
    rw [hstep]
  refine ⟨heq, by rw [heq], ?_, List.sorted_insertionSort _ _⟩
  simp only [updateSetMap]
  rw [setMapFold_clauses, List.map_append, List.map_map]
  have hcomp : (SetClause.column ∘ fun k =>
      ({ column := k, value := (lookupVal k l1).getD (SetValue.plain Arg.null) } : SetClause)) =
      id := rfl
  rw [hcomp, List.map_id]

/-- Witness for C4: the spec example, maps holding b ↦ 2 and a ↦ 1 in the two
possible iteration orders, rendering `a = ?, b = ?` either way. -/
theorem setMap_sorted_deterministic_witness :
    updateSetMap (updateTable emptyUpdate "t") [("b", .plain (.int 2)), ("a", .plain (.int 1))] =
      updateSetMap (updateTable emptyUpdate "t")
        [("a", .plain (.int 1)), ("b", .plain (.int 2))] ∧
    (updateSetMap (updateTable emptyUpdate "t")
        [("b", .plain (.int 2)), ("a", .plain (.int 1))]).setClauses.map SetClause.column =
      ["a", "b"] ∧
    updateToSql (updateSetMap (updateTable emptyUpdate "t")
        [("b", .plain (.int 2)), ("a", .plain (.int 1))]) =
      ⟨"UPDATE t SET a = ?, b = ?", [.int 1, .int 2], none⟩ := by
  have h := setMap_sorted_deterministic (updateTable emptyUpdate "t")
    [("b", .plain (.int 2)), ("a", .plain (.int 1))]
    [("a", .plain (.int 1)), ("b", .plain (.int 2))] (by decide) (by decide)
  exact ⟨h.1, h.2.2.1.trans (by decide), by decide⟩

end Squirrel
